import Mathlib

/-!
Shallow embedding of the gmail-actions rule engine.

The definitions below transliterate the Python source:
  - `app/schemas.py`      : the rule data model (conditions, actions, rules),
  - `app/helpers.py`      : `parse_date_condition`, `email_matches_rule`
                            (the canonical, date-aware matcher), `perform_actions`,
                            `load_rules`,
  - `app/email_processor.py` : the processor's own `email_matches_rule`
                            (text-only, in namespace `Processor`) and
                            `process_emails`,
  - `app/db/queries.py`   : `insert_email`, `get_all_emails`,
                            `update_email_folder`, `update_email_read_status`
                            over a list model of the SQLite `emails` table.

Python dynamic values that can appear in an email dict are modelled by `Value`;
Python exceptions that the evaluation path can raise are modelled by `PyError`
and `Except`.  Datetimes are modelled by their (timezone-normalized) instant in
seconds, together with an awareness flag; `datetime.now().astimezone()` is an
explicit `now : Int` parameter.
-/

/-- Python exceptions that the rule-evaluation path can raise. -/
inductive PyError where
  | typeError
  | valueError
  | attributeError
  deriving DecidableEq, Repr

/-- A Python `datetime`: the instant (in seconds) it denotes once normalized to
an aware datetime (`astimezone()` on a naive value attaches the local zone and
fixes an instant), plus whether the original value was timezone-aware. -/
structure PyDateTime where
  instant : Int
  aware : Bool
  deriving DecidableEq, Repr

/-- A dynamic value stored in a Python email dict: strings, datetimes,
integers, booleans and `None`. -/
inductive Value where
  | vstr (s : String)
  | vdate (d : PyDateTime)
  | vint (n : Int)
  | vbool (b : Bool)
  | vnone
  deriving DecidableEq, Repr

/-- Python truthiness of a `Value`. -/
def truthyVal : Value → Bool
  | .vstr s => s ≠ ""
  | .vdate _ => true
  | .vint n => n ≠ 0
  | .vbool b => b
  | .vnone => false

/-- Python truthiness of an `Optional[str]` (`None` and `""` are falsy). -/
def truthyO : Option String → Bool
  | none => false
  | some s => s ≠ ""

/-- Python `a or b` on two `Optional[str]` values: returns `b` whenever `a` is
falsy (`None` or the empty string). -/
def pyOrOpt (a b : Option String) : Option String :=
  match a with
  | none => b
  | some s => if s = "" then b else some s

/-- A Python email dict: association list from field names to values. -/
def EmailRec := List (String × Value)

/-- Python `email.get(field, "")`. -/
def emailGet (email : EmailRec) (field : String) : Value :=
  match List.lookup field email with
  | some v => v
  | none => .vstr ""

/-- Python `str.lower()`, modelled characterwise. -/
def pyLower (s : String) : List Char :=
  s.toList.map Char.toLower

/-- Python `needle in hay` on character lists: `needle` occurs as a
contiguous substring of `hay`. -/
def strContains (hay needle : List Char) : Bool :=
  hay.tails.any (fun t => needle.isPrefixOf t)

/-- Accumulate decimal digits; any non-digit character fails. -/
def digitsToNat (acc : Nat) : List Char → Option Nat
  | [] => some acc
  | c :: cs => if c.isDigit then digitsToNat (acc * 10 + (c.toNat - 48)) cs else none

/-- Python `int(s)` on a string: an optionally signed run of decimal digits;
anything else raises `ValueError` (modelled as `none`). -/
def pyInt (s : String) : Option Int :=
  match s.toList with
  | [] => none
  | '-' :: cs =>
    match cs with
    | [] => none
    | _ => (digitsToNat 0 cs).map (fun n => -(n : Int))
  | '+' :: cs =>
    match cs with
    | [] => none
    | _ => (digitsToNat 0 cs).map (fun n => (n : Int))
  | cs => (digitsToNat 0 cs).map (fun n => (n : Int))

/-- `app/schemas.py` `RuleCondition`: `field` required, the rest optional. -/
structure RuleCondition where
  field : String
  contains : Option String := none
  value : Option String := none
  predicate : Option String := none
  deriving DecidableEq, Repr

/-- `app/schemas.py` `ActionType`. -/
inductive ActionType where
  | move
  | markRead
  | markUnread
  deriving DecidableEq, Repr

/-- `app/schemas.py` `RuleAction`. -/
structure RuleAction where
  action : ActionType
  folder : Option String := none
  deriving DecidableEq, Repr

/-- `app/schemas.py` `Rule`.  The predicate is kept as the string it is
compared against at match time (`PredicateType` is a `StrEnum`), so that the
matcher's behaviour on unrecognized predicate strings can be stated. -/
structure Rule where
  predicate : String
  conditions : List RuleCondition
  actions : List RuleAction
  deriving DecidableEq, Repr

/-- `app/helpers.py` `parse_date_condition`: check an email's received date
against a relative-date condition.  `int(condition.value)` raises `TypeError`
on `None` and `ValueError` on a non-numeric string; `now` is the instant of
`datetime.now().astimezone()`.  The naive-datetime branch (`astimezone()`)
does not change the modelled instant. -/
def parse_date_condition (email_date : PyDateTime) (now : Int) (cond : RuleCondition) :
    Except PyError Bool :=
  match cond.value with
  | none => .error .typeError
  | some v =>
    match pyInt v with
    | none => .error .valueError
    | some n =>
      let compare_date := now - n * 86400
      if cond.predicate = some "is_less_than" then
        .ok (decide (email_date.instant < compare_date))
      else if cond.predicate = some "is_greater_than" then
        .ok (decide (email_date.instant > compare_date))
      else
        .ok false

/-- The text-contains check `email_value and value and value.lower() in
email_value.lower()` shared by both matchers: truthiness of `email_value` and
`value` are tested first (short-circuit, no error), then `.lower()` raises
`AttributeError` when the truthy field value is not a string. -/
def containsCheck (email_value : Value) (value : Option String) : Except PyError Bool :=
  if truthyVal email_value = false then .ok false
  else
    match value with
    | none => .ok false
    | some v =>
      if v = "" then .ok false
      else
        match email_value with
        | .vstr s => .ok (strContains (pyLower s) (pyLower v))
        | _ => .error .attributeError

/-- One loop iteration of `app/helpers.py` `email_matches_rule`: evaluate one
condition against an email.  `value = condition.value or condition.contains`;
the relative-date branch is taken when the field is `date_received` and the
value is truthy, and calls `parse_date_condition` on the raw field value
(a non-datetime there raises `AttributeError` at `email_date.tzinfo`). -/
def evalCondition (now : Int) (email : EmailRec) (cond : RuleCondition) :
    Except PyError Bool :=
  let value := pyOrOpt cond.value cond.contains
  let email_value := emailGet email cond.field
  if cond.field = "date_received" ∧ truthyO value then
    match email_value with
    | .vdate d => parse_date_condition d now cond
    | _ => .error .attributeError
  else
    containsCheck email_value value

/-- `app/helpers.py` `email_matches_rule` (the canonical, date-aware matcher):
evaluate every condition into a boolean list, then
`all(results) if predicate == "all" else any(results)`. -/
def email_matches_rule (now : Int) (email : EmailRec) (rule : Rule) :
    Except PyError Bool := do
  let results ← rule.conditions.mapM (evalCondition now email)
  pure (if rule.predicate = "all" then results.all id else results.any id)

/-- One loop iteration of `app/email_processor.py` `email_matches_rule`:
text-contains check only, no relative-date branch. -/
def evalTextCondition (email : EmailRec) (cond : RuleCondition) : Except PyError Bool :=
  containsCheck (emailGet email cond.field) (pyOrOpt cond.value cond.contains)

namespace Processor

/-- `app/email_processor.py` `email_matches_rule`: text-contains conditions
only; `all` for predicate `"all"`, `any` for `"any"`, and a final
`return all(results)` for anything else. -/
def email_matches_rule (email : EmailRec) (rule : Rule) : Except PyError Bool := do
  let results ← rule.conditions.mapM (evalTextCondition email)
  if rule.predicate = "all" then pure (results.all id)
  else if rule.predicate = "any" then pure (results.any id)
  else pure (results.all id)

end Processor

/-- One row of the SQLite `emails` table created by `app/db/database.py`
`init_db`: `id` primary key, `message_id TEXT UNIQUE`, nullable text columns,
`folder` and `is_read` with defaults. -/
structure EmailRow where
  id : Int
  message_id : String
  sender : Option String
  subject : Option String
  date : Option String
  snippet : Option String
  folder : String
  is_read : Bool
  deriving DecidableEq, Repr

/-- The `emails` table: its rows in insertion order, plus the next
autoincrement id. -/
structure Store where
  rows : List EmailRow
  nextId : Int
  deriving DecidableEq, Repr

/-- `app/db/queries.py` `insert_email`: `INSERT` succeeds and appends a row
unless the `UNIQUE` constraint on `message_id` fires (`sqlite3.IntegrityError`),
in which case it returns `False` and the table is untouched. -/
def insert_email (message_id : String) (sender subject date snippet : Option String)
    (folder : String) (is_read : Bool) (st : Store) : Bool × Store :=
  if st.rows.any (fun r => r.message_id = message_id) then
    (false, st)
  else
    (true,
      ⟨st.rows ++ [⟨st.nextId, message_id, sender, subject, date, snippet, folder, is_read⟩],
       st.nextId + 1⟩)

/-- The dict built for one row by `app/db/queries.py` `get_all_emails`
(note the key is `date`, not `date_received`). -/
def rowToRec (r : EmailRow) : EmailRec :=
  [("id", .vint r.id),
   ("message_id", .vstr r.message_id),
   ("sender", match r.sender with | some s => .vstr s | none => .vnone),
   ("subject", match r.subject with | some s => .vstr s | none => .vnone),
   ("date", match r.date with | some s => .vstr s | none => .vnone),
   ("snippet", match r.snippet with | some s => .vstr s | none => .vnone),
   ("folder", .vstr r.folder),
   ("is_read", .vbool r.is_read)]

/-- `app/db/queries.py` `get_all_emails`: every row, in table order. -/
def get_all_emails (st : Store) : List EmailRec :=
  st.rows.map rowToRec

/-- `app/db/queries.py` `update_email_folder`:
`UPDATE emails SET folder = ? WHERE message_id = ?`; returns
`cursor.rowcount > 0`.  `sqlite3.Error` is caught and surfaced as `False`,
so the function is total. -/
def update_email_folder (message_id folder : String) (st : Store) : Bool × Store :=
  (decide (0 < st.rows.countP (fun r => r.message_id = message_id)),
   ⟨st.rows.map (fun r => if r.message_id = message_id then { r with folder := folder } else r),
    st.nextId⟩)

/-- `app/db/queries.py` `update_email_read_status`:
`UPDATE emails SET is_read = ? WHERE message_id = ?`; returns
`cursor.rowcount > 0`, with `sqlite3.Error` caught as `False`. -/
def update_email_read_status (message_id : String) (is_read : Bool) (st : Store) :
    Bool × Store :=
  (decide (0 < st.rows.countP (fun r => r.message_id = message_id)),
   ⟨st.rows.map (fun r => if r.message_id = message_id then { r with is_read := is_read } else r),
    st.nextId⟩)

/-- An observable store operation (or reported skip) of the action
dispatcher, recorded in order. -/
inductive Op where
  | updFolder (message_id folder : String)
  | updRead (message_id : String) (is_read : Bool)
  | skipMove (message_id : String)
  deriving DecidableEq, Repr

/-- Apply one recorded operation to the store. -/
def applyOp (st : Store) : Op → Store
  | .updFolder mid f => (update_email_folder mid f st).2
  | .updRead mid b => (update_email_read_status mid b st).2
  | .skipMove _ => st

/-- Apply a list of recorded operations left to right. -/
def applyOps (ops : List Op) (st : Store) : Store :=
  ops.foldl applyOp st

/-- `app/helpers.py` `perform_actions` (textually identical in
`app/email_processor.py`): execute each action in order against the store,
keyed by the email's `message_id`.  A `move` whose folder is `None` or empty
prints a notice and `continue`s (recorded as `Op.skipMove`); the returned
booleans of the update queries are ignored. -/
def perform_actions (message_id : String) (actions : List RuleAction) (st : Store) :
    Store × List Op :=
  match actions with
  | [] => (st, [])
  | a :: rest =>
    match a.action with
    | .move =>
      match a.folder with
      | none =>
        let res := perform_actions message_id rest st
        (res.1, .skipMove message_id :: res.2)
      | some f =>
        if f = "" then
          let res := perform_actions message_id rest st
          (res.1, .skipMove message_id :: res.2)
        else
          let st1 := (update_email_folder message_id f st).2
          let res := perform_actions message_id rest st1
          (res.1, .updFolder message_id f :: res.2)
    | .markRead =>
      let st1 := (update_email_read_status message_id true st).2
      let res := perform_actions message_id rest st1
      (res.1, .updRead message_id true :: res.2)
    | .markUnread =>
      let st1 := (update_email_read_status message_id false st).2
      let res := perform_actions message_id rest st1
      (res.1, .updRead message_id false :: res.2)

/-- The operations `perform_actions` will record, independent of store
state (the queries' boolean results are ignored by the dispatcher). -/
def actionOps (message_id : String) : List RuleAction → List Op
  | [] => []
  | a :: rest =>
    match a.action with
    | .move =>
      match a.folder with
      | none => .skipMove message_id :: actionOps message_id rest
      | some f =>
        if f = "" then .skipMove message_id :: actionOps message_id rest
        else .updFolder message_id f :: actionOps message_id rest
    | .markRead => .updRead message_id true :: actionOps message_id rest
    | .markUnread => .updRead message_id false :: actionOps message_id rest

/-- Inner loop of `app/email_processor.py` `process_emails`: try every rule,
in declared order, against one email (its snapshot dict `rec` and its
`message_id`), applying matching rules' actions and accumulating the
matched flag.  There is no break after a match. -/
def processRules (rec : EmailRec) (message_id : String) (rules : List Rule)
    (st : Store) (matched : Bool) : Except PyError (Store × Bool × List Op) :=
  match rules with
  | [] => .ok (st, matched, [])
  | rule :: rest => do
    let m ← Processor.email_matches_rule rec rule
    if m then
      let res := perform_actions message_id rule.actions st
      let rest_res ← processRules rec message_id rest res.1 true
      .ok (rest_res.1, rest_res.2.1, res.2 ++ rest_res.2.2)
    else
      processRules rec message_id rest st matched

/-- Outer loop of `process_emails`: every stored email, in store order, each
matched against the full rule list over its snapshot dict. -/
def processAllEmails (emails : List EmailRow) (rules : List Rule)
    (st : Store) (matched : Bool) : Except PyError (Store × Bool × List Op) :=
  match emails with
  | [] => .ok (st, matched, [])
  | r :: rest => do
    let res ← processRules (rowToRec r) r.message_id rules st matched
    let rest_res ← processAllEmails rest rules res.1 res.2.1
    .ok (rest_res.1, rest_res.2.1, res.2.2 ++ rest_res.2.2)

/-- `app/email_processor.py` `process_emails`: fetch all stored emails, and
if the loaded rule list is empty report and stop; otherwise run the nested
message × rule loops.  Returns the final store, the `rules_matched` flag
reported at the end, and the recorded operations. -/
def process_emails (st : Store) (rules : List Rule) :
    Except PyError (Store × Bool × List Op) :=
  if rules.isEmpty then .ok (st, false, [])
  else processAllEmails st.rows rules st false

/-- A parsed JSON value, as produced by `json.load`. -/
inductive Json where
  | null
  | bool (b : Bool)
  | num (n : Int)
  | str (s : String)
  | arr (elems : List Json)
  | obj (fields : List (String × Json))

/-- Read an optional-string field the way pydantic validates
`Optional[str] = None`: absent or JSON null become `none`, a JSON string is
accepted, anything else is a validation error. -/
def jsonOptStr (fields : List (String × Json)) (key : String) :
    Except String (Option String) :=
  match List.lookup key fields with
  | none => .ok none
  | some .null => .ok none
  | some (.str s) => .ok (some s)
  | some _ => .error "str type expected"

/-- pydantic validation of `RuleCondition` (`app/schemas.py`): an object with
a required string `field` and optional string `contains`, `value`,
`predicate`.  No constraint ties `value` to an integer format. -/
def validateCondition : Json → Except String RuleCondition
  | .obj fields => do
    match List.lookup "field" fields with
    | some (.str f) => do
      let c ← jsonOptStr fields "contains"
      let v ← jsonOptStr fields "value"
      let p ← jsonOptStr fields "predicate"
      .ok ⟨f, c, v, p⟩
    | some _ => .error "field: str type expected"
    | none => .error "field: missing required field"
  | _ => .error "condition: model type expected"

/-- pydantic validation of `RuleAction`: `action` must be one of the
`ActionType` values `move`, `mark_as_read`, `mark_as_unread`; `folder` is an
optional string. -/
def validateAction : Json → Except String RuleAction
  | .obj fields => do
    match List.lookup "action" fields with
    | some (.str a) =>
      let f ← jsonOptStr fields "folder"
      if a = "move" then .ok ⟨.move, f⟩
      else if a = "mark_as_read" then .ok ⟨.markRead, f⟩
      else if a = "mark_as_unread" then .ok ⟨.markUnread, f⟩
      else .error "action: invalid ActionType value"
    | some _ => .error "action: str type expected"
    | none => .error "action: missing required field"
  | _ => .error "action: model type expected"

/-- pydantic validation of `Rule`: `predicate` must be `all` or `any`
(`PredicateType`), `conditions` and `actions` must be arrays of valid
conditions and actions. -/
def validateRule : Json → Except String Rule
  | .obj fields => do
    match List.lookup "predicate" fields with
    | some (.str p) =>
      if p = "all" ∨ p = "any" then
        match List.lookup "conditions" fields with
        | some (.arr cs) => do
          let conds ← cs.mapM validateCondition
          match List.lookup "actions" fields with
          | some (.arr as) => do
            let acts ← as.mapM validateAction
            .ok ⟨p, conds, acts⟩
          | some _ => .error "actions: list type expected"
          | none => .error "actions: missing required field"
        | some _ => .error "conditions: list type expected"
        | none => .error "conditions: missing required field"
      else .error "predicate: invalid PredicateType value"
    | some _ => .error "predicate: str type expected"
    | none => .error "predicate: missing required field"
  | _ => .error "rule: model type expected"

/-- `Rules.model_validate(rules_dict)`: a top-level object with a required
`rules` array of valid rules. -/
def validateRules : Json → Except String (List Rule)
  | .obj fields =>
    match List.lookup "rules" fields with
    | some (.arr rs) => rs.mapM validateRule
    | some _ => .error "rules: list type expected"
    | none => .error "rules: missing required field"
  | _ => .error "rules: model type expected"

/-- What the rules file can look like to `load_rules`: absent, present but not
valid JSON, or present with a parsed JSON document. -/
inductive RulesSource where
  | missing
  | unparseable
  | content (j : Json)

/-- Errors `load_rules` can raise: `json.JSONDecodeError` from `json.load`,
or `pydantic.ValidationError` from `Rules.model_validate`. -/
inductive LoadError where
  | jsonDecodeError
  | validationError (msg : String)
  deriving DecidableEq, Repr

/-- `app/helpers.py` `load_rules`: a missing file prints a warning and
returns an empty rule list (the Bool records that the warning was printed);
otherwise the file is parsed as JSON and validated against the `Rules`
model, and either error propagates. -/
def load_rules : RulesSource → Except LoadError (List Rule × Bool)
  | .missing => .ok ([], true)
  | .unparseable => .error .jsonDecodeError
  | .content j =>
    match validateRules j with
    | .ok rules => .ok (rules, false)
    | .error msg => .error (.validationError msg)

/-- The claim's reading of the text-contains evaluation, following the spec
words literally: the effective value is `condition.value` whenever it is set
(falling back to `condition.contains` only when `value` is unset), the field
value is read as a string (missing treated as empty), and the result is true
iff both are non-empty and the lowered value occurs in the lowered field
value.  To be compared with `evalCondition` from the source. -/
def evalTextConditionClaim (email : EmailRec) (cond : RuleCondition) : Bool :=
  let value := match cond.value with
    | some v => some v
    | none => cond.contains
  let field_value := match emailGet email cond.field with
    | .vstr s => s
    | _ => ""
  match value with
  | none => false
  | some v =>
    if v = "" then false
    else if field_value = "" then false
    else strContains (pyLower field_value) (pyLower v)

section Helpers

lemma exceptBind_ok {α β ε : Type} (a : α) (f : α → Except ε β) :
    (Except.ok a >>= f) = f a := rfl

lemma exceptBind_error {α β ε : Type} (e : ε) (f : α → Except ε β) :
    ((Except.error e : Except ε α) >>= f) = Except.error e := rfl

lemma containsCheck_vstr_none (s : String) :
    containsCheck (.vstr s) none = .ok false := by
  by_cases hs : s = "" <;> simp [containsCheck, truthyVal, hs]

lemma containsCheck_vstr_some (s v : String) :
    containsCheck (.vstr s) (some v) =
      .ok (if s = "" then false
           else if v = "" then false
           else strContains (pyLower s) (pyLower v)) := by
  by_cases hs : s = "" <;> by_cases hv : v = "" <;>
    simp [containsCheck, truthyVal, hs, hv]

lemma evalCondition_text (now : Int) (email : EmailRec) (cond : RuleCondition)
    (hf : cond.field ≠ "date_received") :
    evalCondition now email cond =
      containsCheck (emailGet email cond.field) (pyOrOpt cond.value cond.contains) := by
  unfold evalCondition
  rw [if_neg]
  intro hc
  exact hf hc.1

lemma evalCondition_date (now : Int) (email : EmailRec) (cond : RuleCondition)
    (d : PyDateTime) (hf : cond.field = "date_received")
    (hd : emailGet email cond.field = .vdate d)
    (hv : truthyO (pyOrOpt cond.value cond.contains) = true) :
    evalCondition now email cond = parse_date_condition d now cond := by
  unfold evalCondition
  rw [if_pos ⟨hf, hv⟩, hd]

lemma parse_date_condition_bad_value (d : PyDateTime) (now : Int)
    (cond : RuleCondition)
    (h : cond.value = none ∨ ∃ v, cond.value = some v ∧ pyInt v = none) :
    ∃ e, parse_date_condition d now cond = .error e := by
  rcases h with h | ⟨v, hv, hn⟩
  · exact ⟨.typeError, by simp [parse_date_condition, h]⟩
  · exact ⟨.valueError, by simp [parse_date_condition, hv, hn]⟩

lemma email_matches_rule_ok (now : Int) (email : EmailRec) (rule : Rule)
    (rs : List Bool) (h : rule.conditions.mapM (evalCondition now email) = .ok rs) :
    email_matches_rule now email rule =
      .ok (if rule.predicate = "all" then rs.all id else rs.any id) := by
  unfold email_matches_rule
  rw [h, exceptBind_ok]
  rfl

lemma processor_email_matches_rule_ok (email : EmailRec) (rule : Rule)
    (rs : List Bool) (h : rule.conditions.mapM (evalTextCondition email) = .ok rs) :
    Processor.email_matches_rule email rule =
      .ok (if rule.predicate = "all" then rs.all id
           else if rule.predicate = "any" then rs.any id
           else rs.all id) := by
  unfold Processor.email_matches_rule
  rw [h, exceptBind_ok]
  by_cases h1 : rule.predicate = "all" <;> by_cases h2 : rule.predicate = "any" <;>
    simp [h1, h2] <;> rfl

end Helpers

/-- Claim C1: for every message and rule whose conditions all evaluate (into
the boolean list `rs`), the canonical matcher combines them with logical AND
under predicate `all` and logical OR under predicate `any`; in particular an
empty condition list gives `true` under `all` and `false` under `any`. -/
theorem matcher_combines_all_any (now : Int) (email : EmailRec) (rule : Rule)
    (rs : List Bool) (h : rule.conditions.mapM (evalCondition now email) = .ok rs) :
    (rule.predicate = "all" → email_matches_rule now email rule = .ok (rs.all id)) ∧
    (rule.predicate = "any" → email_matches_rule now email rule = .ok (rs.any id)) ∧
    (rule.predicate = "all" → rule.conditions = [] →
      email_matches_rule now email rule = .ok true) ∧
    (rule.predicate = "any" → rule.conditions = [] →
      email_matches_rule now email rule = .ok false) := by
  have hm := email_matches_rule_ok now email rule rs h
  refine ⟨fun hp => ?_, fun hp => ?_, fun hp hc => ?_, fun hp hc => ?_⟩
  · rw [hm, if_pos hp]
  · rw [hm, if_neg (by rw [hp]; decide)]
  · have hrs : rs = [] := by
      rw [hc, List.mapM_nil] at h
      exact (Except.ok.injEq _ _).mp h.symm
    rw [hm, if_pos hp, hrs]
    rfl
  · have hrs : rs = [] := by
      rw [hc, List.mapM_nil] at h
      exact (Except.ok.injEq _ _).mp h.symm
    rw [hm, if_neg (by rw [hp]; decide), hrs]
    rfl

/-- Witness for C1: a rule with predicate `all` and no conditions matches any
email, here the empty dict. -/
theorem matcher_combines_all_any_witness :
    email_matches_rule 0 ([] : EmailRec) ⟨"all", [], []⟩ = .ok true :=
  (matcher_combines_all_any 0 [] ⟨"all", [], []⟩ [] rfl).2.2.1 rfl rfl

/-- Counterexample to C2 as stated: with `value` set to the empty string and
`contains` set to `"x"`, the claim's precedence reading makes the effective
value the empty string and the condition false, but the source's
`condition.value or condition.contains` falls back to `contains` (Python `or`
treats the empty string as falsy) and the condition evaluates to true. -/
theorem contains_value_precedence_cex :
    evalCondition 0 [("subject", Value.vstr "x")]
      ⟨"subject", some "x", some "", none⟩ = .ok true ∧
    evalTextConditionClaim [("subject", Value.vstr "x")]
      ⟨"subject", some "x", some "", none⟩ = false := by
  constructor <;> rfl

/-- Claim C2 (amended): for every message whose field value is a string and
every text-contains condition (field other than `date_received`), evaluation
never raises, and it returns true iff the effective value — `condition.value`,
falling back to `condition.contains` when `value` is unset or empty — is
non-empty, the field value is non-empty, and the lowered value is a substring
of the lowered field value; a missing field or missing value yields false. -/
theorem contains_condition_iff (now : Int) (email : EmailRec)
    (cond : RuleCondition) (s : String)
    (hf : cond.field ≠ "date_received")
    (hs : emailGet email cond.field = .vstr s) :
    (∃ b, evalCondition now email cond = .ok b) ∧
    (evalCondition now email cond = .ok true ↔
      ∃ v, pyOrOpt cond.value cond.contains = some v ∧ v ≠ "" ∧ s ≠ "" ∧
        strContains (pyLower s) (pyLower v) = true) := by
  rw [evalCondition_text now email cond hf, hs]
  cases hv : pyOrOpt cond.value cond.contains with
  | none =>
    rw [containsCheck_vstr_none]
    exact ⟨⟨false, rfl⟩, by simp⟩
  | some v =>
    rw [containsCheck_vstr_some]
    refine ⟨⟨_, rfl⟩, ?_⟩
    by_cases hsE : s = "" <;> by_cases hvE : v = "" <;>
      simp [hsE, hvE]

/-- Witness for the amended C2: the condition `subject contains "urg"`
matches an email whose subject is `"Urgent"`. -/
theorem contains_condition_iff_witness :
    evalCondition 0 [("subject", Value.vstr "Urgent")]
      ⟨"subject", some "urg", none, none⟩ = .ok true :=
  (contains_condition_iff 0 [("subject", Value.vstr "Urgent")]
      ⟨"subject", some "urg", none, none⟩ "Urgent" (by decide) rfl).2.mpr
    ⟨"urg", rfl, by decide, by decide, by decide⟩

/-- Claim C3: for a message whose `date_received` is timezone-aware and a
relative-date condition whose value parses as the integer `n`, predicate
`is_less_than` holds iff the received instant is before `now` minus `n` days,
`is_greater_than` holds iff it is after, and any other predicate gives
false. -/
theorem date_condition_cutoff (d : PyDateTime) (now : Int) (cond : RuleCondition)
    (v : String) (n : Int)
    (_h_aware : d.aware = true) (hv : cond.value = some v) (hn : pyInt v = some n) :
    (cond.predicate = some "is_less_than" →
      parse_date_condition d now cond = .ok (decide (d.instant < now - n * 86400))) ∧
    (cond.predicate = some "is_greater_than" →
      parse_date_condition d now cond = .ok (decide (d.instant > now - n * 86400))) ∧
    (cond.predicate ≠ some "is_less_than" → cond.predicate ≠ some "is_greater_than" →
      parse_date_condition d now cond = .ok false) := by
  unfold parse_date_condition
  rw [hv]
  refine ⟨fun hp => ?_, fun hp => ?_, fun hp1 hp2 => ?_⟩
  · simp [hn, hp]
  · simp [hn, hp]
  · simp [hn, if_neg hp1, if_neg hp2]

/-- Witness for C3, the spec's own example: a message received 10 days ago
satisfies `{is_less_than, value = "7"}` and not `{is_greater_than,
value = "7"}` (with `now = 0`, instants in seconds). -/
theorem date_condition_cutoff_witness :
    parse_date_condition ⟨-864000, true⟩ 0
      ⟨"date_received", none, some "7", some "is_less_than"⟩ = .ok true ∧
    parse_date_condition ⟨-864000, true⟩ 0
      ⟨"date_received", none, some "7", some "is_greater_than"⟩ = .ok false := by
  constructor
  · have h := (date_condition_cutoff ⟨-864000, true⟩ 0
      ⟨"date_received", none, some "7", some "is_less_than"⟩ "7" 7 rfl rfl
      (by decide)).1 rfl
    rw [h, decide_eq_true (by norm_num)]
  · have h := (date_condition_cutoff ⟨-864000, true⟩ 0
      ⟨"date_received", none, some "7", some "is_greater_than"⟩ "7" 7 rfl rfl
      (by decide)).2.1 rfl
    rw [h, decide_eq_false (by norm_num)]

/-- Counterexample to C4 as stated: a relative-date condition whose value is
the non-numeric string `"abc"` passes `RuleCondition` validation unchanged
(rule loading imposes no integer constraint), and evaluating it against a
message with a timezone-aware `date_received` raises `ValueError` from
`int(condition.value)` instead of resolving to false. -/
theorem evaluation_total_cex :
    evalCondition 0 [("date_received", Value.vdate ⟨-86400, true⟩)]
      ⟨"date_received", none, some "abc", some "is_less_than"⟩ =
      .error .valueError ∧
    (validateCondition (Json.obj
      [("field", Json.str "date_received"), ("value", Json.str "abc"),
       ("predicate", Json.str "is_less_than")])).isOk = true := by
  constructor <;> rfl

/-- Claim C4 (amended): text-contains evaluation (any field other than
`date_received`, string field value) never raises and resolves every
uninterpretable input to false; but a relative-date condition whose value is
missing or not parseable as an integer raises (`TypeError` / `ValueError`) at
evaluation time, and loading performs no integer validation on the day count
(`RuleCondition` accepts any string `value`). -/
theorem evaluation_totality_boundary :
    (∀ (now : Int) (email : EmailRec) (cond : RuleCondition) (s : String),
      cond.field ≠ "date_received" → emailGet email cond.field = .vstr s →
      (evalCondition now email cond).isOk = true) ∧
    (∀ (now : Int) (email : EmailRec) (cond : RuleCondition) (d : PyDateTime),
      cond.field = "date_received" → emailGet email cond.field = .vdate d →
      truthyO (pyOrOpt cond.value cond.contains) = true →
      (cond.value = none ∨ ∃ v, cond.value = some v ∧ pyInt v = none) →
      ∃ e, evalCondition now email cond = .error e) ∧
    (∀ (f s : String),
      validateCondition (Json.obj [("field", Json.str f), ("value", Json.str s)]) =
        .ok ⟨f, none, some s, none⟩) := by
  refine ⟨fun now email cond s hf hs => ?_, fun now email cond d hf hd hv hbad => ?_,
    fun f s => rfl⟩
  · rw [evalCondition_text now email cond hf, hs]
    cases hv : pyOrOpt cond.value cond.contains with
    | none => rw [containsCheck_vstr_none]; rfl
    | some v => rw [containsCheck_vstr_some]; rfl
  · obtain ⟨e, he⟩ := parse_date_condition_bad_value d now cond hbad
    exact ⟨e, by rw [evalCondition_date now email cond d hf hd hv, he]⟩

/-- Witness for the amended C4: a subject-contains condition on a message
with no subject evaluates (to false) without raising, a `date_received`
condition with value `"abc"` raises, and validation accepts that value. -/
theorem evaluation_totality_boundary_witness :
    (evalCondition 0 ([] : EmailRec) ⟨"subject", some "x", none, none⟩).isOk = true ∧
    (∃ e, evalCondition 0 [("date_received", Value.vdate ⟨0, true⟩)]
      ⟨"date_received", none, some "abc", none⟩ = .error e) ∧
    validateCondition (Json.obj
      [("field", Json.str "date_received"), ("value", Json.str "abc")]) =
      .ok ⟨"date_received", none, some "abc", none⟩ := by
  refine ⟨?_, ?_, ?_⟩
  · exact (evaluation_totality_boundary).1 0 [] ⟨"subject", some "x", none, none⟩ ""
      (by decide) rfl
  · exact (evaluation_totality_boundary).2.1 0 [("date_received", Value.vdate ⟨0, true⟩)]
      ⟨"date_received", none, some "abc", none⟩ ⟨0, true⟩ rfl rfl (by decide)
      (Or.inr ⟨"abc", rfl, by decide⟩)
  · exact (evaluation_totality_boundary).2.2 "date_received" "abc"

/-- Counterexample to C5 as stated: on the canonical matcher
(`app/helpers.py`), a rule with the unrecognized predicate `"neither"` and an
empty condition list yields false, while ALL semantics (predicate `"all"`,
same conditions, same message) yields true — so an unrecognized predicate
does not behave as ALL. -/
theorem unrecognized_predicate_cex :
    email_matches_rule 0 ([] : EmailRec) ⟨"neither", [], []⟩ = .ok false ∧
    email_matches_rule 0 ([] : EmailRec) ⟨"all", [], []⟩ = .ok true := by
  constructor <;> rfl

/-- Claim C5 (amended): on the canonical matcher (`app/helpers.py`), every
rule whose predicate is not `"all"` — including every unrecognized predicate
— behaves exactly as if the predicate were `"any"` (logical OR); it is the
processor's duplicate matcher (`app/email_processor.py`) that falls back to
ALL semantics for predicates that are neither `"all"` nor `"any"`. -/
theorem unrecognized_predicate_fallback :
    (∀ (now : Int) (email : EmailRec) (rule : Rule), rule.predicate ≠ "all" →
      email_matches_rule now email rule =
        email_matches_rule now email ⟨"any", rule.conditions, rule.actions⟩) ∧
    (∀ (email : EmailRec) (rule : Rule),
      rule.predicate ≠ "all" → rule.predicate ≠ "any" →
      Processor.email_matches_rule email rule =
        Processor.email_matches_rule email ⟨"all", rule.conditions, rule.actions⟩) := by
  constructor
  · intro now email rule hp
    unfold email_matches_rule
    cases hm : rule.conditions.mapM (evalCondition now email) with
    | ok rs => simp [exceptBind_ok, hm, hp]
    | error e => simp [hm, exceptBind_error]
  · intro email rule h1 h2
    unfold Processor.email_matches_rule
    cases hm : rule.conditions.mapM (evalTextCondition email) with
    | ok rs => simp [exceptBind_ok, hm, h1, h2]
    | error e => simp [hm, exceptBind_error]

/-- Witness for the amended C5: a rule with predicate `"xyz"` and one
condition is matched by the canonical matcher exactly like the same rule with
predicate `"any"`, and by the processor matcher exactly like predicate
`"all"`. -/
theorem unrecognized_predicate_fallback_witness :
    email_matches_rule 0 [("subject", Value.vstr "hi")]
      ⟨"xyz", [⟨"subject", some "hi", none, none⟩], []⟩ =
      email_matches_rule 0 [("subject", Value.vstr "hi")]
        ⟨"any", [⟨"subject", some "hi", none, none⟩], []⟩ ∧
    Processor.email_matches_rule [("subject", Value.vstr "hi")]
      ⟨"xyz", [⟨"subject", some "hi", none, none⟩], []⟩ =
      Processor.email_matches_rule [("subject", Value.vstr "hi")]
        ⟨"all", [⟨"subject", some "hi", none, none⟩], []⟩ := by
  constructor
  · exact (unrecognized_predicate_fallback).1 0 [("subject", Value.vstr "hi")]
      ⟨"xyz", [⟨"subject", some "hi", none, none⟩], []⟩ (by decide)
  · exact (unrecognized_predicate_fallback).2 [("subject", Value.vstr "hi")]
      ⟨"xyz", [⟨"subject", some "hi", none, none⟩], []⟩ (by decide) (by decide)

/-- The boolean a succeeded matcher call returned (`false` for an error;
used only under hypotheses that rule out errors). -/
def okB : Except PyError Bool → Bool
  | .ok b => b
  | .error _ => false

/-- Declarative form of the operations one email generates: for each rule in
declared order, its actions' operations when the rule matches. -/
def ruleOps (rec : EmailRec) (message_id : String) : List Rule → List Op
  | [] => []
  | rule :: rest =>
    (if okB (Processor.email_matches_rule rec rule) then actionOps message_id rule.actions
     else []) ++ ruleOps rec message_id rest

/-- Whether some rule matches the email. -/
def anyMatch (rec : EmailRec) (rules : List Rule) : Bool :=
  rules.any (fun rule => okB (Processor.email_matches_rule rec rule))

/-- Declarative form of the operations of a whole run: emails in store
order, each with every rule. -/
def allOps (rows : List EmailRow) (rules : List Rule) : List Op :=
  rows.flatMap (fun r => ruleOps (rowToRec r) r.message_id rules)

/-- Whether some rule matches some stored email. -/
def anyRowMatch (rows : List EmailRow) (rules : List Rule) : Bool :=
  rows.any (fun r => anyMatch (rowToRec r) rules)

section OrchestratorLemmas

lemma applyOps_cons (op : Op) (ops : List Op) (st : Store) :
    applyOps (op :: ops) st = applyOps ops (applyOp st op) := rfl

lemma applyOps_append (ops1 ops2 : List Op) (st : Store) :
    applyOps (ops1 ++ ops2) st = applyOps ops2 (applyOps ops1 st) :=
  List.foldl_append _ _ _ _

lemma perform_actions_eq (message_id : String) (actions : List RuleAction) (st : Store) :
    perform_actions message_id actions st =
      (applyOps (actionOps message_id actions) st, actionOps message_id actions) := by
  induction actions generalizing st with
  | nil => rfl
  | cons a rest ih =>
    obtain ⟨act, folder⟩ := a
    cases act with
    | move =>
      cases folder with
      | none => simp [perform_actions, actionOps, applyOps_cons, applyOp, ih]
      | some f =>
        by_cases hf0 : f = "" <;>
          simp [perform_actions, actionOps, hf0, applyOps_cons, applyOp, ih]
    | markRead => simp [perform_actions, actionOps, applyOps_cons, applyOp, ih]
    | markUnread => simp [perform_actions, actionOps, applyOps_cons, applyOp, ih]

lemma processRules_eq (rec : EmailRec) (message_id : String) (rules : List Rule)
    (st : Store) (matched : Bool)
    (H : ∀ rule ∈ rules, (Processor.email_matches_rule rec rule).isOk = true) :
    processRules rec message_id rules st matched =
      .ok (applyOps (ruleOps rec message_id rules) st,
           matched || anyMatch rec rules,
           ruleOps rec message_id rules) := by
  induction rules generalizing st matched with
  | nil => simp [processRules, ruleOps, anyMatch, applyOps]
  | cons rule rest ih =>
    have hhead := H rule (List.mem_cons_self rule rest)
    cases hm : Processor.email_matches_rule rec rule with
    | error e => rw [hm] at hhead; exact absurd hhead (by simp [Except.isOk, Except.toBool])
    | ok b =>
      have Hrest : ∀ r ∈ rest, (Processor.email_matches_rule rec r).isOk = true :=
        fun r hr => H r (List.mem_cons_of_mem rule hr)
      cases b with
      | true =>
        simp only [processRules, hm, exceptBind_ok, if_pos,
          perform_actions_eq, ih _ _ Hrest]
        simp [ruleOps, anyMatch, hm, okB, applyOps_append, exceptBind_ok]
      | false =>
        simp only [processRules, hm, exceptBind_ok, ih _ _ Hrest]
        simp [ruleOps, anyMatch, hm, okB]

lemma processAllEmails_eq (rows : List EmailRow) (rules : List Rule)
    (st : Store) (matched : Bool)
    (H : ∀ r ∈ rows, ∀ rule ∈ rules,
      (Processor.email_matches_rule (rowToRec r) rule).isOk = true) :
    processAllEmails rows rules st matched =
      .ok (applyOps (allOps rows rules) st,
           matched || anyRowMatch rows rules,
           allOps rows rules) := by
  induction rows generalizing st matched with
  | nil => simp [processAllEmails, allOps, anyRowMatch, applyOps]
  | cons r rest ih =>
    have hr := H r (List.mem_cons_self r rest)
    have Hrest : ∀ x ∈ rest, ∀ rule ∈ rules,
        (Processor.email_matches_rule (rowToRec x) rule).isOk = true :=
      fun x hx => H x (List.mem_cons_of_mem r hx)
    simp only [processAllEmails, processRules_eq _ _ _ _ _ hr, exceptBind_ok,
      ih _ _ Hrest]
    simp [allOps, anyRowMatch, applyOps_append, Bool.or_assoc]

end OrchestratorLemmas

/-- Claim C6: a run of the orchestrator with an empty rule set stops with the
store untouched, no operations and no match reported; otherwise it visits
every stored message in store order and, for each, every rule in declared
order, applying the actions of each matching rule and continuing with the
next rule (no stop on first match), and finally reports whether at least one
rule matched at least one message.  Stated under the hypothesis that no
matcher call raises. -/
theorem orchestrator_run (st : Store) (rules : List Rule)
    (H : ∀ r ∈ st.rows, ∀ rule ∈ rules,
      (Processor.email_matches_rule (rowToRec r) rule).isOk = true) :
    (rules = [] → process_emails st rules = .ok (st, false, [])) ∧
    process_emails st rules =
      .ok (applyOps (allOps st.rows rules) st,
           anyRowMatch st.rows rules,
           allOps st.rows rules) := by
  constructor
  · intro h
    simp [process_emails, h]
  · by_cases hr : rules.isEmpty
    · have h : rules = [] := List.isEmpty_iff.mp hr
      subst h
      have hops : allOps st.rows [] = [] := by
        unfold allOps
        induction st.rows with
        | nil => rfl
        | cons a t ih => simp [ruleOps, ih]
      have hflag : anyRowMatch st.rows [] = false := by
        unfold anyRowMatch
        simp [anyMatch]
      rw [hops, hflag]
      simp [process_emails, applyOps]
    · unfold process_emails
      rw [if_neg (by simp [hr])]
      rw [processAllEmails_eq st.rows rules st false H]
      simp

/-- Witness for C6: a store with two messages and two rules; the first
message matches both rules (and is acted on by both: marked read, then
moved), the second matches none, and the run reports that a rule matched. -/
theorem orchestrator_run_witness :
    process_emails
      ⟨[⟨1, "m1", some "boss@x.com", some "URGENT: now", none, none, "INBOX", false⟩,
        ⟨2, "m2", some "alice@x.com", some "hello", none, none, "INBOX", false⟩], 3⟩
      [⟨"all", [⟨"subject", some "urgent", none, none⟩], [⟨.markRead, none⟩]⟩,
       ⟨"any", [⟨"sender", some "boss", none, none⟩], [⟨.move, some "Important"⟩]⟩] =
    .ok (⟨[⟨1, "m1", some "boss@x.com", some "URGENT: now", none, none, "Important", true⟩,
           ⟨2, "m2", some "alice@x.com", some "hello", none, none, "INBOX", false⟩], 3⟩,
         true,
         [.updRead "m1" true, .updFolder "m1" "Important"]) := by
  rw [(orchestrator_run
      ⟨[⟨1, "m1", some "boss@x.com", some "URGENT: now", none, none, "INBOX", false⟩,
        ⟨2, "m2", some "alice@x.com", some "hello", none, none, "INBOX", false⟩], 3⟩
      [⟨"all", [⟨"subject", some "urgent", none, none⟩], [⟨.markRead, none⟩]⟩,
       ⟨"any", [⟨"sender", some "boss", none, none⟩], [⟨.move, some "Important"⟩]⟩]
      (by decide)).2]
  rfl

/-- Claim C7: inserting a message whose `message_id` (the provider-assigned
external id) is already present in the store returns false and leaves the
store exactly as it was: no row added, no row overwritten. -/
theorem insert_duplicate_rejected (message_id : String)
    (sender subject date snippet : Option String) (folder : String) (is_read : Bool)
    (st : Store)
    (h : st.rows.any (fun r => r.message_id = message_id) = true) :
    insert_email message_id sender subject date snippet folder is_read st =
      (false, st) := by
  simp [insert_email, h]

/-- Witness for C7: re-inserting `m1` into a store that already holds a row
with `message_id = "m1"` is rejected and changes nothing. -/
theorem insert_duplicate_rejected_witness :
    insert_email "m1" none (some "second copy") none none "INBOX" false
      ⟨[⟨1, "m1", none, some "first copy", none, none, "INBOX", false⟩], 2⟩ =
    (false, ⟨[⟨1, "m1", none, some "first copy", none, none, "INBOX", false⟩], 2⟩) :=
  insert_duplicate_rejected "m1" none (some "second copy") none none "INBOX" false
    ⟨[⟨1, "m1", none, some "first copy", none, none, "INBOX", false⟩], 2⟩ (by decide)

/-- Claim C9: a `move` action with an absent or empty folder never reaches
`update_email_folder` — the dispatcher records only a skip for it, the store
is exactly what processing the remaining actions alone produces, and those
remaining actions are still executed. -/
theorem move_without_folder_skipped (message_id : String) (a : RuleAction)
    (rest : List RuleAction) (st : Store)
    (h1 : a.action = .move) (h2 : a.folder = none ∨ a.folder = some "") :
    perform_actions message_id (a :: rest) st =
      ((perform_actions message_id rest st).1,
       .skipMove message_id :: (perform_actions message_id rest st).2) := by
  obtain ⟨act, folder⟩ := a
  cases h1
  rcases h2 with h2 | h2 <;> cases h2 <;> simp [perform_actions]

/-- Witness for C9: a folderless move followed by a mark-as-read: the move is
skipped, the mark-as-read still runs. -/
theorem move_without_folder_skipped_witness :
    perform_actions "m1" [⟨.move, none⟩, ⟨.markRead, none⟩]
      ⟨[⟨1, "m1", none, none, none, none, "INBOX", false⟩], 2⟩ =
    ((perform_actions "m1" [⟨.markRead, none⟩]
        ⟨[⟨1, "m1", none, none, none, none, "INBOX", false⟩], 2⟩).1,
     .skipMove "m1" :: (perform_actions "m1" [⟨.markRead, none⟩]
        ⟨[⟨1, "m1", none, none, none, none, "INBOX", false⟩], 2⟩).2) :=
  move_without_folder_skipped "m1" ⟨.move, none⟩ [⟨.markRead, none⟩]
    ⟨[⟨1, "m1", none, none, none, none, "INBOX", false⟩], 2⟩ rfl (Or.inl rfl)

section UpdateLemmas

lemma zip_map_snd {α : Type} (g : α → α) (l : List α) (p : α × α)
    (hp : p ∈ l.zip (l.map g)) : p.2 = g p.1 := by
  induction l with
  | nil => simp at hp
  | cons a t ih =>
    simp only [List.map_cons, List.zip_cons_cons, List.mem_cons] at hp
    rcases hp with h | h
    · rw [h]
    · exact ih h

lemma countP_pos_eq_any {α : Type} (l : List α) (p : α → Bool) :
    decide (0 < l.countP p) = l.any p := by
  rw [Bool.eq_iff_iff]
  simp [List.countP_pos_iff, List.any_eq_true]

lemma map_unmatched_id {α : Type} (l : List α) (f : α → α)
    (h : ∀ x ∈ l, f x = x) : l.map f = l := by
  conv_rhs => rw [show l = l.map id from (List.map_id l).symm]
  exact List.map_congr_left h

end UpdateLemmas

/-- Claim C10: the two update queries return true iff a row with the given
`message_id` exists, are total (SQLite errors are caught and surfaced as
false), keep the row count and every untargeted field of every row unchanged
— `update_email_folder` rewrites only `folder` on matching rows,
`update_email_read_status` only `is_read` — and when they return false the
store is exactly unchanged. -/
theorem update_queries_frame (message_id f : String) (b : Bool) (st : Store) :
    ((update_email_folder message_id f st).1 =
        st.rows.any (fun r => r.message_id = message_id) ∧
      (update_email_read_status message_id b st).1 =
        st.rows.any (fun r => r.message_id = message_id) ∧
      (update_email_folder message_id f st).2.rows.length = st.rows.length ∧
      (update_email_read_status message_id b st).2.rows.length = st.rows.length ∧
      (update_email_folder message_id f st).2.nextId = st.nextId ∧
      (update_email_read_status message_id b st).2.nextId = st.nextId ∧
      (∀ p ∈ st.rows.zip (update_email_folder message_id f st).2.rows,
        p.2.id = p.1.id ∧ p.2.message_id = p.1.message_id ∧
        p.2.sender = p.1.sender ∧ p.2.subject = p.1.subject ∧
        p.2.date = p.1.date ∧ p.2.snippet = p.1.snippet ∧
        p.2.is_read = p.1.is_read ∧
        p.2.folder = (if p.1.message_id = message_id then f else p.1.folder)) ∧
      (∀ p ∈ st.rows.zip (update_email_read_status message_id b st).2.rows,
        p.2.id = p.1.id ∧ p.2.message_id = p.1.message_id ∧
        p.2.sender = p.1.sender ∧ p.2.subject = p.1.subject ∧
        p.2.date = p.1.date ∧ p.2.snippet = p.1.snippet ∧
        p.2.folder = p.1.folder ∧
        p.2.is_read = (if p.1.message_id = message_id then b else p.1.is_read))) ∧
    (st.rows.any (fun r => r.message_id = message_id) = false →
      update_email_folder message_id f st = (false, st) ∧
      update_email_read_status message_id b st = (false, st)) := by
  obtain ⟨rows, nid⟩ := st
  constructor
  · refine ⟨countP_pos_eq_any rows _, countP_pos_eq_any rows _,
      List.length_map _ _, List.length_map _ _, rfl, rfl, ?_, ?_⟩
    · intro p hp
      have h2 := zip_map_snd _ rows p hp
      rw [h2]
      by_cases hm : p.1.message_id = message_id <;> simp [hm]
    · intro p hp
      have h2 := zip_map_snd _ rows p hp
      rw [h2]
      by_cases hm : p.1.message_id = message_id <;> simp [hm]
  · intro hnone
    have hnomatch : ∀ r ∈ rows, ¬(r.message_id = message_id) := by
      intro r hr
      have := List.any_eq_false.mp hnone r hr
      simpa using this
    have hid : ∀ (g : EmailRow → EmailRow),
        (∀ r, r.message_id ≠ message_id → g r = r) → rows.map g = rows := by
      intro g hg
      exact map_unmatched_id rows g (fun r hr => hg r (hnomatch r hr))
    constructor
    · unfold update_email_folder
      rw [countP_pos_eq_any rows _, hnone,
        hid _ (fun r hr => by simp [hr])]
    · unfold update_email_read_status
      rw [countP_pos_eq_any rows _, hnone,
        hid _ (fun r hr => by simp [hr])]

/-- Witness for C10: updating a `message_id` that is not stored returns
false and leaves the store untouched (both queries). -/
theorem update_queries_frame_witness :
    update_email_folder "m9" "Spam"
      ⟨[⟨1, "m1", none, none, none, none, "INBOX", false⟩], 2⟩ =
      (false, ⟨[⟨1, "m1", none, none, none, none, "INBOX", false⟩], 2⟩) ∧
    update_email_read_status "m9" true
      ⟨[⟨1, "m1", none, none, none, none, "INBOX", false⟩], 2⟩ =
      (false, ⟨[⟨1, "m1", none, none, none, none, "INBOX", false⟩], 2⟩) :=
  (update_queries_frame "m9" "Spam" true
    ⟨[⟨1, "m1", none, none, none, none, "INBOX", false⟩], 2⟩).2 (by decide)

/-- Claim C8: loading rules from a missing source returns an empty rule set
with a logged warning rather than failing; a source that exists but is not
valid JSON, or whose JSON does not conform to the `Rules` model shape
(missing required fields, wrong action kind, unrecognized predicate), makes
loading fail with an error. -/
theorem rules_loader_contract :
    (load_rules .missing = .ok ([], true)) ∧
    (load_rules .unparseable = .error .jsonDecodeError) ∧
    (∀ (j : Json) (rules : List Rule), validateRules j = .ok rules →
      load_rules (.content j) = .ok (rules, false)) ∧
    (∀ (j : Json) (msg : String), validateRules j = .error msg →
      load_rules (.content j) = .error (.validationError msg)) ∧
    ((validateRules (Json.obj [("rules", Json.arr [Json.obj
        [("predicate", Json.str "all"), ("conditions", Json.arr [])]])])).isOk
      = false) ∧
    ((validateRules (Json.obj [("rules", Json.arr [Json.obj
        [("predicate", Json.str "all"), ("conditions", Json.arr []),
         ("actions", Json.arr [Json.obj [("action", Json.str "delete")]])]])])).isOk
      = false) ∧
    ((validateRules (Json.obj [("rules", Json.arr [Json.obj
        [("predicate", Json.str "sometimes"), ("conditions", Json.arr []),
         ("actions", Json.arr [])]])])).isOk = false) := by
  refine ⟨rfl, rfl, fun j rules h => ?_, fun j msg h => ?_, rfl, rfl, rfl⟩
  · simp [load_rules, h]
  · simp [load_rules, h]

/-- Witness for C8: a well-formed rules document loads into the expected
rule, and a document with an unrecognized predicate fails validation with the
pydantic-style error. -/
theorem rules_loader_contract_witness :
    load_rules (.content (Json.obj [("rules", Json.arr [Json.obj
      [("predicate", Json.str "any"),
       ("conditions", Json.arr [Json.obj
         [("field", Json.str "subject"), ("contains", Json.str "urgent")]]),
       ("actions", Json.arr [Json.obj
         [("action", Json.str "move"), ("folder", Json.str "Spam")]])]])])) =
      .ok ([⟨"any", [⟨"subject", some "urgent", none, none⟩],
            [⟨.move, some "Spam"⟩]⟩], false) ∧
    load_rules (.content (Json.obj [("rules", Json.arr [Json.obj
      [("predicate", Json.str "sometimes"), ("conditions", Json.arr []),
       ("actions", Json.arr [])]])])) =
      .error (.validationError "predicate: invalid PredicateType value") := by
  constructor
  · exact (rules_loader_contract).2.2.1 _ _ rfl
  · exact (rules_loader_contract).2.2.2.1 _ _ rfl
